import Mathlib

/-
Verification of the tatuscan inventory reconciliation/metrics core.

The Python source (src/server/tatuscan/services/inventory_service.py and
src/client/tools/delete_older.py) is embedded shallowly:

* `datetime` objects become `PyDT`: an integer wall-clock reading (seconds,
  proleptic-Gregorian civil encoding) plus an optional UTC offset;
  `off = none` models a naive datetime.  Instants are modelled at second
  resolution; every instant the service itself produces or parses is a
  whole number of seconds.
* The configured zone (config default "America/Cuiaba") is modelled as the
  fixed offset UTC-04:00; that zone has used -04:00 with no daylight saving
  since 2019, which covers all instants exercised here.
* Python floats become `PyFloat`: an exact rational as an unnormalized
  numerator/denominator pair with a positive denominator, ordered by
  cross-multiplication.  Every float the service computes (ages in months,
  cpu percentages) is exactly representable this way.
* Python dict payloads become `Obs`, a record of `Option Val` fields where
  `none` means the key is absent and `some .vnull` means the key maps to
  JSON null; `Val` mirrors the dynamic values the service manipulates.
* Fallible Python operations (`float(x)`, `int(x)`, string slicing of a
  non-string, datetime parsing) return `Except PyExc`; the service-level
  `try/except` blocks become explicit wrapping of those errors.
-/

namespace Tatuscan

/-- Decidable equality for `Except`, so that concrete runs of the embedded
fallible operations can be checked by `decide`. -/
instance {ε α : Type} [DecidableEq ε] [DecidableEq α] : DecidableEq (Except ε α) := fun x y =>
  match x, y with
  | .ok a, .ok b =>
    if h : a = b then isTrue (by rw [h]) else isFalse (fun hh => by cases hh; exact h rfl)
  | .error a, .error b =>
    if h : a = b then isTrue (by rw [h]) else isFalse (fun hh => by cases hh; exact h rfl)
  | .ok _, .error _ => isFalse (fun hh => by cases hh)
  | .error _, .ok _ => isFalse (fun hh => by cases hh)

/-- An exact model of the Python floats the service manipulates: a rational
number as an unnormalized fraction.  All values constructed in the
embedding have a positive `den`. -/
structure PyFloat where
  num : Int
  den : Int
  deriving DecidableEq

/-- Embed an integer. -/
def PyFloat.ofInt (n : Int) : PyFloat := ⟨n, 1⟩

/-- Fraction order by cross-multiplication (valid for positive `den`). -/
def PyFloat.le (a b : PyFloat) : Prop := a.num * b.den ≤ b.num * a.den

/-- Strict fraction order by cross-multiplication (valid for positive `den`). -/
def PyFloat.lt (a b : PyFloat) : Prop := a.num * b.den < b.num * a.den

instance (a b : PyFloat) : Decidable (a.le b) := by unfold PyFloat.le; infer_instance

instance (a b : PyFloat) : Decidable (a.lt b) := by unfold PyFloat.lt; infer_instance

/-- Fraction division (the divisor's `num` is positive in every use). -/
def PyFloat.div (a b : PyFloat) : PyFloat := ⟨a.num * b.den, a.den * b.num⟩

/-- The literal `30.42` from `get_age_distribution`. -/
def monthsDivisor : PyFloat := ⟨3042, 100⟩

/-- UTC offset, in seconds, of the configured zone (default "America/Cuiaba",
UTC-04:00, no daylight saving in the modelled era). -/
def tzOffset : Int := -14400

/-- A Python `datetime`: wall-clock reading in seconds (civil encoding via
`daysFromCivil`) plus an optional UTC offset in seconds (`none` = naive). -/
structure PyDT where
  wall : Int
  off : Option Int
  deriving DecidableEq

/-- Absolute instant (seconds since the Unix epoch) of an aware datetime;
for a naive one this is just the wall reading (the offset defaults to 0). -/
def PyDT.abs (d : PyDT) : Int := d.wall - d.off.getD 0

/-- `tz.localize(dt)`: attach the configured zone, keeping the wall clock. -/
def localize (d : PyDT) : PyDT := ⟨d.wall, some tzOffset⟩

/-- `dt.astimezone(tz)`: convert an aware datetime to the configured zone,
keeping the absolute instant. -/
def astimezone (d : PyDT) : PyDT := ⟨d.wall - d.off.getD 0 + tzOffset, some tzOffset⟩

/-- `datetime.now(tz)` given the current absolute epoch time `nowAbs`. -/
def nowDT (nowAbs : Int) : PyDT := ⟨nowAbs + tzOffset, some tzOffset⟩

/-- Gregorian leap-year test. -/
def isLeap (y : Int) : Bool := (y % 4 == 0 && y % 100 != 0) || (y % 400 == 0)

/-- Number of days in a month (used to validate parsed calendar dates,
as Python's `datetime` constructor does). -/
def daysInMonth (y : Int) (m : Nat) : Nat :=
  if m = 2 then (if isLeap y then 29 else 28)
  else if m = 4 ∨ m = 6 ∨ m = 9 ∨ m = 11 then 30
  else 31

/-- Calendar validity of a (year, month, day) triple. -/
def validDate (y : Int) (m d : Nat) : Bool :=
  1 ≤ m && m ≤ 12 && 1 ≤ d && d ≤ daysInMonth y m

/-- Days since 1970-01-01 of a proleptic-Gregorian civil date
(standard era-based formula; divisions are truncating as intended). -/
def daysFromCivil (y m d : Int) : Int :=
  let y' := if m ≤ 2 then y - 1 else y
  let era := (if 0 ≤ y' then y' else y' - 399) / 400
  let yoe := y' - era * 400
  let doy := (153 * (if m ≤ 2 then m + 9 else m - 3) + 2) / 5 + d - 1
  let doe := yoe * 365 + yoe / 4 - yoe / 100 + doy
  era * 146097 + doe - 719468

/-- Wall-clock encoding, in seconds, of a civil date-time. -/
def wallOf (y : Int) (m d h mi s : Nat) : Int :=
  daysFromCivil y m d * 86400 + h * 3600 + mi * 60 + s

/-- Read exactly `w` decimal digits, accumulating their value. -/
def readNatAux : Nat → List Char → Nat → Option (Nat × List Char)
  | 0, cs, acc => some (acc, cs)
  | w + 1, c :: cs, acc =>
      if c.isDigit then readNatAux w cs (acc * 10 + (c.toNat - 48)) else none
  | _ + 1, [], _ => none

/-- Read a fixed-width decimal number. -/
def readNatW (w : Nat) (cs : List Char) : Option (Nat × List Char) :=
  readNatAux w cs 0

/-- Consume one expected character. -/
def expectChar (c : Char) : List Char → Option (List Char)
  | d :: cs => if d = c then some cs else none
  | [] => none

/-- Parse `YYYY-MM-DD`, validating the calendar date. -/
def parseDatePart (cs : List Char) : Option ((Int × Nat × Nat) × List Char) := do
  let (y, cs) ← readNatW 4 cs
  let cs ← expectChar '-' cs
  let (m, cs) ← readNatW 2 cs
  let cs ← expectChar '-' cs
  let (d, cs) ← readNatW 2 cs
  if validDate y m d then some (((y : Int), m, d), cs) else none

/-- Parse `HH:MM` or `HH:MM:SS`, validating the ranges. -/
def parseTimePart (cs : List Char) : Option ((Nat × Nat × Nat) × List Char) := do
  let (h, cs) ← readNatW 2 cs
  let cs ← expectChar ':' cs
  let (mi, cs) ← readNatW 2 cs
  let (s, cs) ←
    match cs with
    | ':' :: rest => readNatW 2 rest
    | _ => some (0, cs)
  if h < 24 && mi < 60 && s < 60 then some ((h, mi, s), cs) else none

/-- Parse an optional trailing UTC offset `+HH:MM` / `-HH:MM` (in seconds). -/
def parseOffsetPart (cs : List Char) : Option (Option Int × List Char) :=
  match cs with
  | [] => some (none, [])
  | '+' :: rest => do
      let (oh, rest) ← readNatW 2 rest
      let rest ← expectChar ':' rest
      let (om, rest) ← readNatW 2 rest
      if oh < 24 && om < 60 then some (some ((oh * 3600 + om * 60 : Nat) : Int), rest) else none
  | '-' :: rest => do
      let (oh, rest) ← readNatW 2 rest
      let rest ← expectChar ':' rest
      let (om, rest) ← readNatW 2 rest
      if oh < 24 && om < 60 then some (some (-((oh * 3600 + om * 60 : Nat) : Int)), rest) else none
  | _ => some (none, cs)

/-- `datetime.fromisoformat`: `YYYY-MM-DD`, optionally followed by a single
separator character, a time of day, and a UTC offset.  Returns a naive or
aware `PyDT`. -/
def parseIsoChars (cs : List Char) : Option PyDT := do
  let ((y, m, d), cs) ← parseDatePart cs
  match cs with
  | [] => some ⟨wallOf y m d 0 0 0, none⟩
  | _sep :: rest => do
      let ((h, mi, s), rest) ← parseTimePart rest
      let (off, rest) ← parseOffsetPart rest
      if rest = [] then some ⟨wallOf y m d h mi s, off⟩ else none

/-- `datetime.strptime(s, "%Y-%m-%d")` (whole string must match). -/
def parseYmdChars (cs : List Char) : Option PyDT := do
  let ((y, m, d), cs) ← parseDatePart cs
  if cs = [] then some ⟨wallOf y m d 0 0 0, none⟩ else none

/-- `datetime.strptime(s, "%d/%m/%Y")` (whole string must match). -/
def parseDmyChars (cs : List Char) : Option PyDT := do
  let (d, cs) ← readNatW 2 cs
  let cs ← expectChar '/' cs
  let (m, cs) ← readNatW 2 cs
  let cs ← expectChar '/' cs
  let (y, cs) ← readNatW 4 cs
  if cs = [] && validDate y m d then some ⟨wallOf y m d 0 0 0, none⟩ else none

/-- `datetime.strptime(s, "%Y-%m-%d %H:%M:%S")` (whole string must match;
the seconds field is mandatory for this format). -/
def parseYmdHmsChars (cs : List Char) : Option PyDT := do
  let ((y, m, d), cs) ← parseDatePart cs
  let cs ← expectChar ' ' cs
  let (h, cs) ← readNatW 2 cs
  let cs ← expectChar ':' cs
  let (mi, cs) ← readNatW 2 cs
  let cs ← expectChar ':' cs
  let (s, cs) ← readNatW 2 cs
  if cs = [] && h < 24 && mi < 60 && s < 60 then some ⟨wallOf y m d h mi s, none⟩ else none

/-- Dynamic (JSON / Python) values handled by the service. -/
inductive Val
  | vnull
  | vstr (s : String)
  | vint (n : Int)
  | vfloat (x : PyFloat)
  | vdt (d : PyDT)
  deriving DecidableEq

/-- Python truthiness of a `Val`. -/
def truthy : Val → Bool
  | .vnull => false
  | .vstr s => s ≠ ""
  | .vint n => n ≠ 0
  | .vfloat x => x.num ≠ 0
  | .vdt _ => true

/-- Python `a or b`. -/
def pyOr (a b : Val) : Val := if truthy a then a else b

/-- Service-level errors (src/server/tatuscan/services/exceptions.py).
`invalidFormat` is the `ValidationError` raised by `_parse_datetime`
(the spec's `InvalidFormat`); `noValidFields` is the `ValidationError`
raised by `partial_update` when neither recognized key is supplied. -/
inductive SvcErr
  | validation (missing : List String)
  | noValidFields
  | invalidFormat (raw : String)
  | notFound (id : String)
  | databaseError
  deriving DecidableEq

/-- Whether an error is (a subclass of) `ValidationError`. -/
def SvcErr.isValidation : SvcErr → Bool
  | .validation _ => true
  | .noValidFields => true
  | .invalidFormat _ => true
  | _ => false

/-- Whether an error is a `NotFoundError`. -/
def SvcErr.isNotFound : SvcErr → Bool
  | .notFound _ => true
  | _ => false

/-- Python exceptions that can escape an expression of the embedded code:
`TypeError`/`ValueError` from coercions, or a raised service exception. -/
inductive PyExc
  | typeError
  | valueError
  | svc (e : SvcErr)
  deriving DecidableEq

/-- `v[:n]` — slicing requires a string, else `TypeError`. -/
def pySliceStr (v : Val) (n : Nat) : Except PyExc String :=
  match v with
  | .vstr s => .ok (s.take n)
  | _ => .error .typeError

/-- Whitespace as stripped by Python's `str.strip()`. -/
def isSpaceChar (c : Char) : Bool :=
  c = ' ' || c = '\t' || c = '\n' || c = '\r' || c = '\x0b' || c = '\x0c'

/-- Python `s.strip()`. -/
def stripChars (cs : List Char) : List Char :=
  ((cs.dropWhile isSpaceChar).reverse.dropWhile isSpaceChar).reverse

/-- Parse the digits of a decimal integer literal. -/
def digitsToNat : List Char → Option Nat
  | [] => none
  | cs =>
    if cs.all (·.isDigit) then
      some (cs.foldl (fun acc c => acc * 10 + (c.toNat - 48)) 0)
    else none

/-- Python `int(s)` on a string: optional sign, then digits. -/
def parseIntStr (s : String) : Option Int :=
  match stripChars s.toList with
  | '-' :: cs => (digitsToNat cs).map (fun n => -(n : Int))
  | '+' :: cs => (digitsToNat cs).map (fun n => (n : Int))
  | cs => (digitsToNat cs).map (fun n => (n : Int))

/-- Python `float(s)` on a string: optional sign, digits, optional fraction. -/
def parseFloatStr (s : String) : Option PyFloat :=
  let core : List Char → Option PyFloat := fun cs =>
    let intPart := cs.takeWhile (fun c => c ≠ '.')
    match cs.dropWhile (fun c => c ≠ '.') with
    | [] => (digitsToNat intPart).map (fun n => PyFloat.ofInt n)
    | _dot :: fracPart =>
        match digitsToNat intPart, digitsToNat fracPart with
        | some n, some f =>
            some ⟨(n : Int) * (10 : Int) ^ fracPart.length + f, (10 : Int) ^ fracPart.length⟩
        | _, _ => none
  match stripChars s.toList with
  | '-' :: cs => (core cs).map (fun x => ⟨-x.num, x.den⟩)
  | '+' :: cs => core cs
  | cs => core cs

/-- Python `float(v)`: numbers pass through, numeric strings parse,
`None`/datetimes raise `TypeError`, bad strings raise `ValueError`. -/
def pyFloat : Val → Except PyExc PyFloat
  | .vint n => .ok (PyFloat.ofInt n)
  | .vfloat x => .ok x
  | .vstr s => match parseFloatStr s with
      | some x => .ok x
      | none => .error .valueError
  | _ => .error .typeError

/-- Python `int(v)` (truncation toward zero on floats, as `Int.div` is). -/
def pyInt : Val → Except PyExc Int
  | .vint n => .ok n
  | .vfloat x => .ok (Int.tdiv x.num x.den)
  | .vstr s => match parseIntStr s with
      | some n => .ok n
      | none => .error .valueError
  | _ => .error .typeError

/-- `InventoryService._parse_datetime` (inventory_service.py lines 313-357):
normalize a raw value to an aware datetime in the configured zone, `none`
for null/empty input, or raise `ValidationError` (`invalidFormat`).
A fractional epoch number is truncated to whole seconds (instants are
modelled at second resolution). -/
def parse_datetime (value : Val) : Except PyExc (Option PyDT) :=
  if value = .vnull ∨ value = .vstr "" then .ok none
  else match value with
  | .vnull => .ok none
  | .vdt d => .ok (some (if d.off.isSome then astimezone d else localize d))
  | .vint n => .ok (some ⟨n + tzOffset, some tzOffset⟩)
  | .vfloat x => .ok (some ⟨x.num.fdiv x.den + tzOffset, some tzOffset⟩)
  | .vstr s0 =>
    let cs := stripChars s0.toList
    if cs = [] then .ok none
    else
      let cs := if cs.getLast? = some 'Z'
        then cs.dropLast ++ ['+', '0', '0', ':', '0', '0'] else cs
      match parseIsoChars cs with
      | some d => .ok (some (if d.off.isSome then astimezone d else localize d))
      | none =>
        match parseYmdChars cs with
        | some d => .ok (some (localize d))
        | none =>
          match parseDmyChars cs with
          | some d => .ok (some (localize d))
          | none => .error (.svc (.invalidFormat s0))

/-- A persisted inventory row (src/server/tatuscan/models/inventory.py).
`computer_activation` is kept as a `Val` because legacy rows may hold a
string where new rows hold a datetime (`get_age_distribution` handles both). -/
structure Rec where
  machine_id : String
  hostname : String
  ip : String
  os : String
  os_version : String
  cpu_percent : PyFloat
  memory_total_mb : Int
  memory_used_mb : Int
  computer_model : Option String
  computer_activation : Option Val
  activation_days : Option Int
  created_at : PyDT
  updated_at : Option PyDT
  deriving DecidableEq

/-- An inbound JSON observation (a Python dict): `none` = key absent,
`some .vnull` = key present with null value. -/
structure Obs where
  machine_id : Option Val := none
  hostname : Option Val := none
  ip : Option Val := none
  os : Option Val := none
  os_version : Option Val := none
  cpu_percent : Option Val := none
  memory_total_mb : Option Val := none
  memory_used_mb : Option Val := none
  computer_model : Option Val := none
  computer_activation : Option Val := none
  activation_days : Option Val := none
  deriving DecidableEq

/-- `data.get(k)` with Python's `None` default. -/
def gv (x : Option Val) : Val := x.getD .vnull

/-- `k in data` for the keys the service inspects. -/
def Obs.hasKey (o : Obs) : String → Bool
  | "machine_id" => o.machine_id.isSome
  | "hostname" => o.hostname.isSome
  | "ip" => o.ip.isSome
  | "os" => o.os.isSome
  | "os_version" => o.os_version.isSome
  | "cpu_percent" => o.cpu_percent.isSome
  | "memory_total_mb" => o.memory_total_mb.isSome
  | "memory_used_mb" => o.memory_used_mb.isSome
  | "computer_model" => o.computer_model.isSome
  | "computer_activation" => o.computer_activation.isSome
  | "activation_days" => o.activation_days.isSome
  | _ => false

/-- Required fields of `create_or_update` (inventory_service.py line 81). -/
def requiredFields : List String :=
  ["machine_id", "hostname", "ip", "os", "cpu_percent", "memory_total_mb"]

/-- `[k for k in required if k not in data]` (line 82). -/
def missingOf (o : Obs) : List String :=
  requiredFields.filter (fun k => ! o.hasKey k)

/-- The value used as the primary-key lookup; the claims only exercise
string machine ids, which the key column stores verbatim. -/
def keyOf : Val → String
  | .vstr s => s
  | _ => ""

/-- `db.session.get(Inventory, id)` over the embedded store. -/
def findRec (store : List Rec) (id : String) : Option Rec :=
  store.find? (fun r => r.machine_id == id)

/-- The core-field coercions shared verbatim by the update branch
(lines 92-99) and the create branch (lines 115-122) of `create_or_update`:
hostname, ip, os, os_version, cpu_percent, memory_total_mb, memory_used_mb,
computer_model, in source order. -/
def coreFields (data : Obs) :
    Except PyExc (String × String × String × String × PyFloat × Int × Int × Option String) := do
  let hostname ← pySliceStr (gv data.hostname) 100
  let ip ← pySliceStr (gv data.ip) 45
  let os ← pySliceStr (gv data.os) 100
  let os_version ← pySliceStr (pyOr (gv data.os_version) (.vstr "")) 100
  let cpu_percent ← pyFloat (gv data.cpu_percent)
  let memory_total_mb ← pyInt (gv data.memory_total_mb)
  let memory_used_mb ← pyInt (pyOr (gv data.memory_used_mb) (.vint 0))
  let computer_model ←
    if truthy (gv data.computer_model) then do
      let s ← pySliceStr (pyOr (gv data.computer_model) (.vstr "")) 100
      pure (some s)
    else pure (none : Option String)
  pure (hostname, ip, os, os_version, cpu_percent, memory_total_mb,
    memory_used_mb, computer_model)

/-- `if "computer_activation" in data: ... _parse_datetime(...)`
(lines 102-103 / 127-128). Outer `none` = key absent (field untouched). -/
def optActivation (data : Obs) : Except PyExc (Option (Option Val)) :=
  match data.computer_activation with
  | some v => do
      let d ← parse_datetime v
      pure (some (d.map Val.vdt))
  | none => pure none

/-- `if "activation_days" in data: int(...) if ... is not None else None`
(lines 104-105 / 129-130). Outer `none` = key absent (field untouched). -/
def optActDays (data : Obs) : Except PyExc (Option (Option Int)) :=
  match data.activation_days with
  | some v =>
      if v ≠ .vnull then do
        let n ← pyInt v
        pure (some (some n))
      else pure (some none)
  | none => pure none

/-- The update branch of `create_or_update` (lines 90-109): full overwrite of
the core fields, optional activation fields only when the keys are present,
then `updated_at = datetime.now(tz)`. -/
def updateExisting (existing : Rec) (nowAbs : Int) (data : Obs) : Except PyExc Rec := do
  let (hostname, ip, os, os_version, cpu_percent, memory_total_mb,
    memory_used_mb, computer_model) ← coreFields data
  let ca ← optActivation data
  let ad ← optActDays data
  pure { existing with
    hostname := hostname, ip := ip, os := os, os_version := os_version,
    cpu_percent := cpu_percent, memory_total_mb := memory_total_mb,
    memory_used_mb := memory_used_mb, computer_model := computer_model,
    computer_activation := ca.getD existing.computer_activation,
    activation_days := ad.getD existing.activation_days,
    updated_at := some (nowDT nowAbs) }

/-- The create branch of `create_or_update` (lines 111-134): build a fresh
record with `created_at = datetime.now(tz)` and no `updated_at`. -/
def createNew (nowAbs : Int) (data : Obs) : Except PyExc Rec := do
  let (hostname, ip, os, os_version, cpu_percent, memory_total_mb,
    memory_used_mb, computer_model) ← coreFields data
  let ca ← optActivation data
  let ad ← optActDays data
  let inv : Rec :=
    { machine_id := keyOf (gv data.machine_id),
      hostname := hostname, ip := ip, os := os, os_version := os_version,
      cpu_percent := cpu_percent, memory_total_mb := memory_total_mb,
      memory_used_mb := memory_used_mb, computer_model := computer_model,
      computer_activation := ca.getD none,
      activation_days := ad.getD none,
      created_at := nowDT nowAbs, updated_at := none }
  pure inv

/-- The exception wrapping of `create_or_update` (lines 136-140):
`ValidationError` propagates, anything else becomes `DatabaseError`. -/
def wrapCreateErr : PyExc → SvcErr
  | .svc e => if e.isValidation then e else .databaseError
  | _ => .databaseError

/-- `InventoryService.create_or_update` (lines 66-140) over an explicit
store. Returns the post-operation store (unchanged on failure, i.e. rolled
back) and either `(record, wasCreated)` or a service error. -/
def createOrUpdate (store : List Rec) (nowAbs : Int) (data : Obs) :
    List Rec × Except SvcErr (Rec × Bool) :=
  if missingOf data ≠ [] then (store, .error (.validation (missingOf data)))
  else
    match findRec store (keyOf (gv data.machine_id)) with
    | some existing =>
      match updateExisting existing nowAbs data with
      | .ok r =>
        (store.map (fun x => if x.machine_id == keyOf (gv data.machine_id) then r else x),
          .ok (r, false))
      | .error e => (store, .error (wrapCreateErr e))
    | none =>
      match createNew nowAbs data with
      | .ok r => (store ++ [r], .ok (r, true))
      | .error e => (store, .error (wrapCreateErr e))

/-- The exception wrapping of `partial_update` (lines 183-187):
`ValidationError` and `NotFoundError` propagate, anything else becomes
`DatabaseError`. -/
def wrapPatchErr : PyExc → SvcErr
  | .svc e => if e.isValidation || e.isNotFound then e else .databaseError
  | _ => .databaseError

/-- The body of `partial_update`'s `try` block (lines 163-181): patch
`computer_activation` / `activation_days` when present, fail when neither
is, and stamp `updated_at` only when some updated field is not
`computer_activation`. -/
def patchBody (inventory : Rec) (nowAbs : Int) (data : Obs) : Except PyExc Rec := do
  let (inv1, fields1) ←
    match data.computer_activation with
    | some v => do
        let d ← parse_datetime v
        pure ({ inventory with computer_activation := d.map Val.vdt },
          ["computer_activation"])
    | none => pure (inventory, [])
  let (inv2, fields2) ←
    match data.activation_days with
    | some v => do
        let n ←
          if v ≠ .vnull then do
            let k ← pyInt v
            pure (some k)
          else pure (none : Option Int)
        pure ({ inv1 with activation_days := n }, fields1 ++ ["activation_days"])
    | none => pure (inv1, fields1)
  if fields2 = [] then Except.error (.svc .noValidFields)
  else if fields2.any (fun f => f ≠ "computer_activation") then
    pure { inv2 with updated_at := some (nowDT nowAbs) }
  else
    pure inv2

/-- `InventoryService.partial_update` (lines 142-187) over an explicit store. -/
def patch_update (store : List Rec) (nowAbs : Int) (machine_id : String) (data : Obs) :
    List Rec × Except SvcErr Rec :=
  match findRec store machine_id with
  | none => (store, .error (.notFound machine_id))
  | some inventory =>
    match patchBody inventory nowAbs data with
    | .ok r => (store.map (fun x => if x.machine_id == machine_id then r else x), .ok r)
    | .error e => (store, .error (wrapPatchErr e))

/-- One age bucket of `get_age_distribution` (lines 297-303). -/
structure AgeRange where
  lo : Int
  hi : Int
  label : String
  deriving DecidableEq

/-- The five fixed buckets, in source order. -/
def ageRanges : List AgeRange :=
  [⟨0, 12, "0–12"⟩, ⟨12, 36, "12–36"⟩, ⟨36, 60, "36–60"⟩,
   ⟨60, 120, "60–120"⟩, ⟨120, 9999, ">120"⟩]

/-- The per-record body of `get_age_distribution`'s first loop
(lines 271-295): accept a datetime or a string in one of the two
formats, localize/convert to the configured zone, and return the age in
months `days_diff / 30.42`; any other shape (or a falsy value, or an
exception) yields `none` and the record is skipped. -/
def ageOfActivation (nowAbs : Int) (v : Val) : Option PyFloat :=
  if ¬ truthy v then none
  else
    let d? : Option PyDT :=
      match v with
      | .vdt d => some d
      | .vstr s =>
        match parseYmdHmsChars s.toList with
        | some d => some d
        | none => parseYmdChars s.toList
      | _ => none
    match d? with
    | none => none
    | some d =>
      let d := if d.off.isSome then astimezone d else localize d
      let days : Int := (nowAbs - d.abs).fdiv 86400
      some ((PyFloat.ofInt days).div monthsDivisor)

/-- One step of the bucketing loop (lines 305-309): increment the count of
the first range `r` with `r.min <= m < r.max`, if any. -/
def bumpFirst : List (AgeRange × Nat) → PyFloat → List (AgeRange × Nat)
  | [], _ => []
  | (r, c) :: rest, m =>
    if (PyFloat.ofInt r.lo).le m ∧ m.lt (PyFloat.ofInt r.hi) then (r, c + 1) :: rest
    else (r, c) :: bumpFirst rest m

/-- `InventoryService.get_age_distribution` (lines 259-311) over an
explicit store, with the current time passed explicitly. -/
def getAgeDistribution (nowAbs : Int) (recs : List Rec) : List (String × Nat) :=
  let ages := recs.filterMap (fun r => r.computer_activation.bind (ageOfActivation nowAbs))
  let counts := ages.foldl bumpFirst (ageRanges.map (fun r => (r, 0)))
  counts.map (fun rc => (rc.1.label, rc.2))

/-- One step of grouping records by `os_version` (the `GROUP BY` of
`get_version_distribution`, lines 239-247), keeping first-occurrence
order of the distinct versions. -/
def bumpVersion (acc : List (String × Nat)) (v : String) : List (String × Nat) :=
  if acc.any (fun p => p.1 == v) then
    acc.map (fun p => if p.1 == v then (p.1, p.2 + 1) else p)
  else acc ++ [(v, 1)]

/-- Distinct `os_version` groups with their record counts. -/
def versionGroups (recs : List Rec) : List (String × Nat) :=
  recs.foldl (fun acc r => bumpVersion acc r.os_version) []

/-- Descending-count order used by `ORDER BY count DESC`. -/
def byCountDesc (a b : String × Nat) : Prop := b.2 ≤ a.2

instance : DecidableRel byCountDesc := fun a b => by unfold byCountDesc; infer_instance

instance : IsTotal (String × Nat) byCountDesc := ⟨fun a b => le_total b.2 a.2⟩

instance : IsTrans (String × Nat) byCountDesc := ⟨fun _ _ _ h1 h2 => le_trans h2 h1⟩

/-- The `ORDER BY count DESC` of the grouping query, modelled as a stable
descending sort (ties keep the deterministic grouping order). -/
def sortedVersionGroups (recs : List Rec) : List (String × Nat) :=
  List.insertionSort byCountDesc (versionGroups recs)

/-- `r.os_version or "-"` applied to a group entry. -/
def labelize (p : String × Nat) : String × Nat :=
  (if p.1 = "" then "-" else p.1, p.2)

/-- `InventoryService.get_version_distribution` (lines 228-257) over an
explicit store: top `top_n` groups, then an "Outros" entry totalling the
remainder when that total is non-zero. -/
def getVersionDistribution (recs : List Rec) (top_n : Nat) : List (String × Nat) :=
  if top_n < (sortedVersionGroups recs).length then
    if (((sortedVersionGroups recs).drop top_n).map (fun p => p.2)).sum ≠ 0 then
      ((sortedVersionGroups recs).take top_n).map labelize
        ++ [("Outros", (((sortedVersionGroups recs).drop top_n).map (fun p => p.2)).sum)]
    else ((sortedVersionGroups recs).take top_n).map labelize
  else (sortedVersionGroups recs).map labelize

/-- A record as seen by the dedup tool (src/client/tools/delete_older.py):
machine id, hostname, and the `_parse_dt` results of `updated_at` /
`created_at` (absolute instants; `none` = missing or unparseable). -/
structure DRec where
  machine_id : String
  hostname : String
  updated_at : Option Int
  created_at : Option Int
  deriving DecidableEq

/-- `datetime.min` (0001-01-01 00:00), the sort-key fallback. -/
def datetimeMin : Int := daysFromCivil 1 1 1 * 86400

/-- The `_score` sort key of `ordenar_registros` (lines 92-99):
`(updated_at or created_at or datetime.min, created_at or datetime.min)`. -/
def score (r : DRec) : Int × Int :=
  ((r.updated_at.or r.created_at).getD datetimeMin, r.created_at.getD datetimeMin)

/-- Lexicographic order on sort keys (how Python compares the tuples). -/
def keyLE (p q : Int × Int) : Prop :=
  p.1 < q.1 ∨ (p.1 = q.1 ∧ p.2 ≤ q.2)

instance (p q : Int × Int) : Decidable (keyLE p q) := by unfold keyLE; infer_instance

/-- Strict lexicographic order on sort keys. -/
def keyLT (p q : Int × Int) : Prop :=
  p.1 < q.1 ∨ (p.1 = q.1 ∧ p.2 < q.2)

instance (p q : Int × Int) : Decidable (keyLT p q) := by unfold keyLT; infer_instance

/-- "More recent first": the comparison `sorted(..., reverse=True)` applies
to the `_score` keys. -/
def maisRecente (a b : DRec) : Prop := keyLE (score b) (score a)

instance : DecidableRel maisRecente := fun a b => by unfold maisRecente; infer_instance

instance : IsTotal DRec maisRecente :=
  ⟨fun a b => by unfold maisRecente keyLE; omega⟩

instance : IsTrans DRec maisRecente :=
  ⟨fun a b c h1 h2 => by unfold maisRecente keyLE at *; omega⟩

/-- `ordenar_registros` (lines 91-101): stable sort, most recent first
(`sorted(..., key=_score, reverse=True)`). -/
def ordenarRegistros (registros : List DRec) : List DRec :=
  List.insertionSort maisRecente registros

/-- The canonical record `processar` keeps for a duplicate group
(line 125: `manter = ordenados[0]`). -/
def manterEscolhido (registros : List DRec) : Option DRec :=
  (ordenarRegistros registros).head?

/-- The records `processar` flags for removal (line 132: `ordenados[1:]`). -/
def paraRemover (registros : List DRec) : List DRec :=
  (ordenarRegistros registros).drop 1

/-- An aware datetime. -/
def dtAware (d : PyDT) : Bool := d.off.isSome

/-- A stored dynamic value carrying no naive datetime. -/
def valAware : Val → Bool
  | .vdt d => dtAware d
  | _ => true

/-- Every instant stored on a record is timezone-aware: `created_at`,
`updated_at` when present, and any datetime held in `computer_activation`. -/
def recAware (r : Rec) : Bool :=
  dtAware r.created_at
    && (match r.updated_at with | some d => dtAware d | none => true)
    && (match r.computer_activation with | some v => valAware v | none => true)

/-- Number of records whose `computer_activation` yields an age
(non-null and parseable in `get_age_distribution`'s sense). -/
def parseableCount (nowAbs : Int) (recs : List Rec) : Nat :=
  (recs.filterMap (fun r => r.computer_activation.bind (ageOfActivation nowAbs))).length

/-- Whether an age lands in some bucket: exactly the ages in `[0, 9999)`. -/
def inBucketRange (m : PyFloat) : Prop :=
  (PyFloat.ofInt 0).le m ∧ m.lt (PyFloat.ofInt 9999)

instance (m : PyFloat) : Decidable (inBucketRange m) := by
  unfold inBucketRange; infer_instance

/-! Concrete sample data used to exercise the embedded operations. -/

/-- A baseline stored record. -/
def rTemplate : Rec :=
  { machine_id := "m1", hostname := "h", ip := "1.2.3.4", os := "linux",
    os_version := "1", cpu_percent := ⟨1, 1⟩, memory_total_mb := 8, memory_used_mb := 0,
    computer_model := none, computer_activation := none, activation_days := none,
    created_at := ⟨0, some tzOffset⟩, updated_at := none }

/-- A record activated at epoch 0 (UTC). -/
def r365 : Rec := { rTemplate with computer_activation := some (.vdt ⟨0, some 0⟩) }

/-- A record whose activation lies one day in the future of `nowAbs = 0`. -/
def rFut : Rec := { rTemplate with computer_activation := some (.vdt ⟨86400, some 0⟩) }

/-- A record that has been updated before. -/
def rUpd : Rec := { rTemplate with updated_at := some ⟨5, some tzOffset⟩ }

/-- A PATCH payload touching only `activation_days`. -/
def obsAD : Obs := { activation_days := some (.vint 7) }

/-- A PATCH payload touching only `computer_activation`. -/
def obsCA : Obs := { computer_activation := some (.vstr "2024-01-15") }

/-- `rUpd` after the `activation_days`-only patch at time 1000. -/
def rUpd2 : Rec :=
  { rUpd with activation_days := some 7, updated_at := some (nowDT 1000) }

/-- `rUpd` after the `computer_activation`-only patch at time 1000:
the activation date changes, `updated_at` does not. -/
def rUpd3 : Rec :=
  { rUpd with computer_activation := some (.vdt ⟨wallOf 2024 1 15 0 0 0, some tzOffset⟩) }

/-- A complete, fresh observation. -/
def obsA : Obs :=
  { machine_id := some (.vstr "mA"), hostname := some (.vstr "hA"),
    ip := some (.vstr "9.9.9.9"), os := some (.vstr "linux"),
    os_version := some (.vstr "22.04"), cpu_percent := some (.vfloat ⟨125, 10⟩),
    memory_total_mb := some (.vint 16000) }

/-- The record `create_or_update` builds from `obsA` at time 50. -/
def recA : Rec :=
  { machine_id := "mA", hostname := "hA", ip := "9.9.9.9", os := "linux",
    os_version := "22.04", cpu_percent := ⟨125, 10⟩, memory_total_mb := 16000,
    memory_used_mb := 0, computer_model := none, computer_activation := none,
    activation_days := none, created_at := nowDT 50, updated_at := none }

/-- A second observation for the same machine with changed fields. -/
def obsA2 : Obs :=
  { obsA with hostname := some (.vstr "hB"), cpu_percent := some (.vint 3) }

/-- `recA` after reconciling `obsA2` at time 60. -/
def recA2 : Rec :=
  { recA with
      hostname := "hB", cpu_percent := PyFloat.ofInt 3,
      updated_at := some (nowDT 60) }

/-- A record with a given `os_version`. -/
def recV (v : String) : Rec := { rTemplate with os_version := v }

/-- A store with 10 distinct versions (counts 3,2,2,1,1,1,1,1,1,1). -/
def store10 : List Rec :=
  [recV "v1", recV "v1", recV "v1", recV "v2", recV "v2", recV "v3", recV "v3",
   recV "v4", recV "v5", recV "v6", recV "v7", recV "v8", recV "v9", recV "v10"]

/-- Dedup sample: updated most recently. -/
def dA : DRec := ⟨"idA", "H", some 300, some 250⟩

/-- Dedup sample: never updated, created at 200. -/
def dB : DRec := ⟨"idB", "H", none, some 200⟩

/-- Dedup sample: updated at 100. -/
def dC : DRec := ⟨"idC", "H", some 100, some 90⟩

end Tatuscan

namespace Tatuscan

set_option maxRecDepth 4000

/-! Supporting lemmas. -/

/-- Binding a successful `Except` computes the continuation. -/
theorem exBind_ok {ε α β : Type} (a : α) (f : α → Except ε β) :
    (Except.ok a >>= f) = f a := rfl

/-- Binding a failed `Except` short-circuits. -/
theorem exBind_error {ε α β : Type} (e : ε) (f : α → Except ε β) :
    ((Except.error e : Except ε α) >>= f) = Except.error e := rfl

/-- String slicing only ever fails with `TypeError`. -/
theorem pySliceStr_error (v : Val) (n : Nat) (e : PyExc)
    (h : pySliceStr v n = .error e) : e = .typeError := by
  cases v <;> simp_all [pySliceStr]

/-- When `cpu_percent` maps to null, the shared core-field coercions fail
with a `TypeError` (either at an earlier slice or at `float(None)`). -/
theorem coreFields_cpu_null (o : Obs) (h : o.cpu_percent = some Val.vnull) :
    coreFields o = .error .typeError := by
  unfold coreFields
  rcases h1 : pySliceStr (gv o.hostname) 100 with e1 | s1
  · obtain rfl : e1 = PyExc.typeError := pySliceStr_error _ _ _ h1
    exact exBind_error _ _
  rw [exBind_ok]
  rcases h2 : pySliceStr (gv o.ip) 45 with e2 | s2
  · obtain rfl : e2 = PyExc.typeError := pySliceStr_error _ _ _ h2
    exact exBind_error _ _
  rw [exBind_ok]
  rcases h3 : pySliceStr (gv o.os) 100 with e3 | s3
  · obtain rfl : e3 = PyExc.typeError := pySliceStr_error _ _ _ h3
    exact exBind_error _ _
  rw [exBind_ok]
  rcases h4 : pySliceStr (pyOr (gv o.os_version) (.vstr "")) 100 with e4 | s4
  · obtain rfl : e4 = PyExc.typeError := pySliceStr_error _ _ _ h4
    exact exBind_error _ _
  rw [exBind_ok, h]
  simp [gv, pyFloat, exBind_error]

end Tatuscan

namespace Tatuscan

set_option maxRecDepth 4000

/-- C6: the timestamp normalizer accepts ISO-8601 with a trailing `Z`
(converted to the configured zone: 10:00 UTC is 06:00 at UTC-04:00),
bare `YYYY-MM-DD` and `DD/MM/YYYY` (midnight, localized), and the
space-separated `YYYY-MM-DD HH:MM:SS` shape the spec lists as a fallback
format; an unparseable string fails with the `InvalidFormat` validation
error carrying the raw value. -/
theorem C6_normalize_examples :
    parse_datetime (.vstr "2024-01-15T10:00:00Z")
      = .ok (some ⟨wallOf 2024 1 15 6 0 0, some tzOffset⟩)
    ∧ parse_datetime (.vstr "2024-01-15")
      = .ok (some ⟨wallOf 2024 1 15 0 0 0, some tzOffset⟩)
    ∧ parse_datetime (.vstr "15/01/2024")
      = .ok (some ⟨wallOf 2024 1 15 0 0 0, some tzOffset⟩)
    ∧ parse_datetime (.vstr "2024-01-15 10:00:00")
      = .ok (some ⟨wallOf 2024 1 15 10 0 0, some tzOffset⟩)
    ∧ parse_datetime (.vstr "not-a-date")
      = .error (.svc (.invalidFormat "not-a-date")) := by
  decide

/-- C7: when required fields are missing, `create_or_update` fails with a
`ValidationError` carrying exactly the missing field names (those required
keys absent from the payload) and leaves the store unchanged. -/
theorem C7_missing_fields_validation (store : List Rec) (nowAbs : Int) (o : Obs)
    (h : missingOf o ≠ []) :
    createOrUpdate store nowAbs o = (store, .error (.validation (missingOf o)))
    ∧ ∀ k, k ∈ missingOf o ↔ (k ∈ requiredFields ∧ o.hasKey k = false) := by
  constructor
  · unfold createOrUpdate
    rw [if_pos h]
  · intro k
    simp [missingOf, List.mem_filter]

/-- C7 witness: an empty observation is rejected with all six required
fields reported missing, leaving the store empty. -/
theorem C7_missing_fields_validation_witness :
    createOrUpdate [] 0 {}
      = ([], .error (.validation
          ["machine_id", "hostname", "ip", "os", "cpu_percent", "memory_total_mb"])) :=
  (C7_missing_fields_validation [] 0 {} (by decide)).1.trans (by decide)

/-- C10: required-field validation checks key presence only, so a payload
whose six required keys are all present passes validation even when
`cpu_percent` is null; the subsequent `float(None)` failure is wrapped as a
`DatabaseError` (not a `ValidationError`) and the store is rolled back. -/
theorem C10_null_cpu_database_error (store : List Rec) (nowAbs : Int) (o : Obs)
    (h1 : o.machine_id.isSome) (h2 : o.hostname.isSome) (h3 : o.ip.isSome)
    (h4 : o.os.isSome) (h5 : o.cpu_percent = some Val.vnull)
    (h6 : o.memory_total_mb.isSome) :
    missingOf o = [] ∧ createOrUpdate store nowAbs o = (store, .error .databaseError) := by
  have h5s : o.cpu_percent.isSome := by rw [h5]; rfl
  have hm : missingOf o = [] := by
    simp [missingOf, requiredFields, List.filter, Obs.hasKey, h1, h2, h3, h4, h5s, h6]
  refine ⟨hm, ?_⟩
  unfold createOrUpdate
  rw [if_neg (by simp [hm])]
  have hcf := coreFields_cpu_null o h5
  cases hfind : findRec store (keyOf (gv o.machine_id)) with
  | some ex =>
    have hup : updateExisting ex nowAbs o = .error .typeError := by
      unfold updateExisting
      rw [hcf, exBind_error]
    simp [hup, wrapCreateErr]
  | none =>
    have hcr : createNew nowAbs o = .error .typeError := by
      unfold createNew
      rw [hcf, exBind_error]
    simp [hcr, wrapCreateErr]

/-- C10 witness: a full payload with `cpu_percent = null` passes the
missing-field check and then fails as a `DatabaseError` with the store
unchanged. -/
theorem C10_null_cpu_database_error_witness :
    missingOf { obsA with cpu_percent := some Val.vnull } = []
    ∧ createOrUpdate [] 50 { obsA with cpu_percent := some Val.vnull }
        = ([], .error .databaseError) :=
  C10_null_cpu_database_error [] 50 _ (by decide) (by decide) (by decide)
    (by decide) (by decide) (by decide)

end Tatuscan

namespace Tatuscan

set_option maxRecDepth 4000

/-- `pure` on `Except` is `ok`. -/
theorem exPure {ε α : Type} (a : α) : (pure a : Except ε α) = .ok a := rfl

/-- C2 counterexample: a `partial_update` whose data contains only
`activation_days` does NOT leave `updated_at` unchanged — contrary to the
claim, the code stamps it, because the stamp is skipped only when every
updated field is `computer_activation`. -/
theorem C2_counterexample :
    patch_update [rUpd] 1000 "m1" obsAD = ([rUpd2], .ok rUpd2)
    ∧ rUpd2.updated_at ≠ rUpd.updated_at := by
  decide

/-- C2 amended: on a successful `partial_update`, `updated_at` is left
unchanged exactly when the payload does not contain `activation_days`
(i.e. only `computer_activation` was patched); any payload containing
`activation_days` — alone or alongside `computer_activation` — sets
`updated_at` to the current time in the configured zone. -/
theorem C2_amended_updated_at_stamp (store : List Rec) (nowAbs : Int) (id : String)
    (inv : Rec) (data : Obs) (store' : List Rec) (r' : Rec)
    (hfind : findRec store id = some inv)
    (hok : patch_update store nowAbs id data = (store', .ok r')) :
    (data.activation_days = none → r'.updated_at = inv.updated_at)
    ∧ (data.activation_days.isSome → r'.updated_at = some (nowDT nowAbs)) := by
  unfold patch_update at hok
  simp only [hfind] at hok
  rcases hbody : patchBody inv nowAbs data with e | r
  · rw [hbody] at hok
    exact absurd hok (by simp)
  rw [hbody] at hok
  have hr : r' = r := by
    have h2 := congrArg Prod.snd hok
    simp at h2
    exact h2.symm
  subst hr
  unfold patchBody at hbody
  rcases hca : data.computer_activation with _ | v
  all_goals rcases had : data.activation_days with _ | w
  · -- neither key: ValidationError, contradicting success
    rw [hca, had] at hbody
    simp [exPure, exBind_ok] at hbody
  · -- activation_days only: stamped
    rw [hca, had] at hbody
    constructor
    · intro h
      simp at h
    · intro _
      by_cases hw : w = Val.vnull
      · subst hw
        simp [exPure, exBind_ok] at hbody
        rw [← hbody]
      · rcases hpi : pyInt w with e | k
        · simp [exPure, exBind_ok, hpi, hw, exBind_error] at hbody
        · simp [exPure, exBind_ok, hpi, hw] at hbody
          rw [← hbody]
  · -- computer_activation only: not stamped
    rw [hca, had] at hbody
    constructor
    · intro _
      rcases hpd : parse_datetime v with e | d
      · simp [exPure, exBind_ok, hpd, exBind_error] at hbody
      · simp [exPure, exBind_ok, hpd] at hbody
        rw [← hbody]
    · intro h
      simp at h
  · -- both keys: stamped
    rw [hca, had] at hbody
    constructor
    · intro h
      simp at h
    · intro _
      rcases hpd : parse_datetime v with e | d
      · simp [exPure, exBind_ok, hpd, exBind_error] at hbody
      · by_cases hw : w = Val.vnull
        · subst hw
          simp [exPure, exBind_ok, hpd] at hbody
          rw [← hbody]
        · rcases hpi : pyInt w with e | k
          · simp [exPure, exBind_ok, hpd, hpi, hw, exBind_error] at hbody
          · simp [exPure, exBind_ok, hpd, hpi, hw] at hbody
            rw [← hbody]

/-- C2 witness: at concrete inputs, a `computer_activation`-only patch
keeps `updated_at`, and an `activation_days`-only patch stamps it. -/
theorem C2_amended_updated_at_stamp_witness :
    rUpd3.updated_at = rUpd.updated_at ∧ rUpd2.updated_at = some (nowDT 1000) :=
  ⟨(C2_amended_updated_at_stamp [rUpd] 1000 "m1" rUpd obsCA [rUpd3] rUpd3
      (by decide) (by decide)).1 rfl,
   (C2_amended_updated_at_stamp [rUpd] 1000 "m1" rUpd obsAD [rUpd2] rUpd2
      (by decide) (by decide)).2 (by decide)⟩

end Tatuscan

namespace Tatuscan

set_option maxRecDepth 4000

/-- The head of the stable descending sort is the strictly greatest element
(when one exists). -/
theorem ordenar_head_strictMax (l : List DRec) (A : DRec) (hmem : A ∈ l)
    (hmax : ∀ y ∈ l, y ≠ A → keyLT (score y) (score A)) :
    (ordenarRegistros l).head? = some A := by
  have hsorted : (ordenarRegistros l).Sorted maisRecente :=
    List.sorted_insertionSort maisRecente l
  have hperm : (ordenarRegistros l).Perm l := List.perm_insertionSort maisRecente l
  have hmem' : A ∈ ordenarRegistros l := hperm.mem_iff.mpr hmem
  cases hord : ordenarRegistros l with
  | nil => rw [hord] at hmem'; cases hmem'
  | cons b t =>
    rw [hord] at hmem' hsorted
    by_cases hba : b = A
    · rw [hba]
      rfl
    · have hbl : b ∈ l := hperm.mem_iff.mp (by rw [hord]; exact List.mem_cons_self b t)
      have hAt : A ∈ t := by
        rcases List.mem_cons.mp hmem' with h | h
        · exact absurd h.symm hba
        · exact h
      have hrel : maisRecente b A := (List.sorted_cons.mp hsorted).1 A hAt
      have hlt : keyLT (score b) (score A) := hmax b hbl hba
      unfold maisRecente keyLE at hrel
      unfold keyLT at hlt
      omega

/-- C8: within a duplicate-hostname group of three records whose keys are
`updated_at = T3` / no `updated_at` with `created_at = T1` /
`updated_at = T2`, with `T2 < T1 < T3`, the dedup resolver sorts the group
most-recent-first, keeps the `T3` record as canonical, and flags exactly
the other 2 for removal — in whatever order the group arrived. -/
theorem C8_dedup_canonical (host idA idB idC : String) (t1 t2 t3 : Int)
    (cA cC : Option Int) (h21 : t2 < t1) (h13 : t1 < t3) (group : List DRec)
    (hperm : group.Perm
      [⟨idA, host, some t3, cA⟩, ⟨idB, host, none, some t1⟩, ⟨idC, host, some t2, cC⟩]) :
    manterEscolhido group = some ⟨idA, host, some t3, cA⟩
    ∧ (paraRemover group).length = 2
    ∧ (ordenarRegistros group).Sorted maisRecente := by
  have hmem : (⟨idA, host, some t3, cA⟩ : DRec) ∈ group := by
    rw [hperm.mem_iff]
    exact List.mem_cons_self _ _
  have hmax : ∀ y ∈ group, y ≠ (⟨idA, host, some t3, cA⟩ : DRec) →
      keyLT (score y) (score ⟨idA, host, some t3, cA⟩) := by
    intro y hy hne
    have hy3 : y ∈ [(⟨idA, host, some t3, cA⟩ : DRec), ⟨idB, host, none, some t1⟩,
        ⟨idC, host, some t2, cC⟩] := hperm.mem_iff.mp hy
    simp only [List.mem_cons, List.mem_singleton, List.not_mem_nil, or_false] at hy3
    rcases hy3 with h | h | h
    · exact absurd h hne
    · rw [h]
      unfold keyLT score
      simp
      omega
    · rw [h]
      unfold keyLT score
      simp
      omega
  refine ⟨ordenar_head_strictMax group _ hmem hmax, ?_, ?_⟩
  · unfold paraRemover
    have hlen : (ordenarRegistros group).length = 3 := by
      unfold ordenarRegistros
      rw [(List.perm_insertionSort maisRecente group).length_eq, hperm.length_eq]
      rfl
    rw [List.length_drop, hlen]
  · exact List.sorted_insertionSort maisRecente group

/-- C8 witness: a concrete group arriving in the order (no-update, T2, T3)
keeps the T3 record and flags 2. -/
theorem C8_dedup_canonical_witness :
    manterEscolhido [dB, dC, dA] = some dA ∧ (paraRemover [dB, dC, dA]).length = 2 :=
  ⟨(C8_dedup_canonical "H" "idA" "idB" "idC" 200 100 300 (some 250) (some 90)
      (by decide) (by decide) [dB, dC, dA] (by decide)).1,
   (C8_dedup_canonical "H" "idA" "idB" "idC" 200 100 300 (some 250) (some 90)
      (by decide) (by decide) [dB, dC, dA] (by decide)).2.1⟩

end Tatuscan

namespace Tatuscan

set_option maxRecDepth 4000

/-- Grouping preserves positivity of the counts. -/
theorem bumpVersion_pos (acc : List (String × Nat)) (v : String)
    (h : ∀ p ∈ acc, 1 ≤ p.2) : ∀ p ∈ bumpVersion acc v, 1 ≤ p.2 := by
  intro p hp
  unfold bumpVersion at hp
  split at hp
  · rcases List.mem_map.mp hp with ⟨q, hq, rfl⟩
    by_cases hqv : (q.1 == v) = true
    · simp [hqv]
    · simp only [hqv, if_false]
      exact h q hq
  · rcases List.mem_append.mp hp with h1 | h1
    · exact h p h1
    · simp only [List.mem_singleton] at h1
      rw [h1]

/-- Every `os_version` group counts at least one record. -/
theorem versionGroups_pos (recs : List Rec) : ∀ p ∈ versionGroups recs, 1 ≤ p.2 := by
  suffices h : ∀ (l : List Rec) (acc : List (String × Nat)), (∀ p ∈ acc, 1 ≤ p.2) →
      ∀ p ∈ l.foldl (fun acc r => bumpVersion acc r.os_version) acc, 1 ≤ p.2 by
    exact h recs [] (by simp)
  intro l
  induction l with
  | nil => intro acc hacc; simpa using hacc
  | cons r t ih =>
    intro acc hacc
    exact ih _ (bumpVersion_pos _ _ hacc)

/-- C5 counterexample: with 10 distinct versions and `top_n = 8` the result
does have 9 entries and the 9th totals the two smallest groups, but its
label is the Portuguese "Outros", not "Others" as the claim states. -/
theorem C5_counterexample :
    getVersionDistribution store10 8
      = [("v1", 3), ("v2", 2), ("v3", 2), ("v4", 1), ("v5", 1), ("v6", 1), ("v7", 1),
         ("v8", 1), ("Outros", 2)]
    ∧ (getVersionDistribution store10 8).getLast? = some ("Outros", 2)
    ∧ ("Outros" : String) ≠ "Others" := by
  decide

/-- C5 amended: with strictly more than `top_n` distinct `os_version`
groups, `get_version_distribution` returns the `top_n` groups of the
descending-count order followed by one final entry labeled "Outros" whose
count is the sum of all remaining groups' counts (that sum is never zero,
every group having at least one record), for `top_n + 1` entries in all. -/
theorem C5_amended_top_n_outros (recs : List Rec) (top_n : Nat)
    (h : top_n < (sortedVersionGroups recs).length) :
    getVersionDistribution recs top_n
      = ((sortedVersionGroups recs).take top_n).map labelize
        ++ [("Outros", (((sortedVersionGroups recs).drop top_n).map (fun p => p.2)).sum)]
    ∧ (getVersionDistribution recs top_n).length = top_n + 1
    ∧ (sortedVersionGroups recs).Sorted byCountDesc := by
  have hsum : (((sortedVersionGroups recs).drop top_n).map (fun p => p.2)).sum ≠ 0 := by
    cases hd : (sortedVersionGroups recs).drop top_n with
    | nil =>
      have := congrArg List.length hd
      rw [List.length_drop] at this
      simp at this
      omega
    | cons q qs =>
      have hq : q ∈ versionGroups recs := by
        have hqd : q ∈ (sortedVersionGroups recs).drop top_n := by
          rw [hd]; exact List.mem_cons_self q qs
        have hqs : q ∈ sortedVersionGroups recs := List.drop_subset top_n _ hqd
        exact (List.perm_insertionSort byCountDesc (versionGroups recs)).mem_iff.mp hqs
      have hpos := versionGroups_pos recs q hq
      simp
      omega
  have heq : getVersionDistribution recs top_n
      = ((sortedVersionGroups recs).take top_n).map labelize
        ++ [("Outros", (((sortedVersionGroups recs).drop top_n).map (fun p => p.2)).sum)] := by
    unfold getVersionDistribution
    rw [if_pos h, if_pos hsum]
  refine ⟨heq, ?_, List.sorted_insertionSort byCountDesc (versionGroups recs)⟩
  rw [heq]
  simp [List.length_take]
  omega

/-- C5 witness: the 10-version store with `top_n = 8` yields 9 entries. -/
theorem C5_amended_top_n_outros_witness :
    (getVersionDistribution store10 8).length = 8 + 1 :=
  (C5_amended_top_n_outros store10 8 (by decide)).2.1

end Tatuscan

namespace Tatuscan

set_option maxRecDepth 4000

/-- Converting to the configured zone preserves the absolute instant. -/
theorem astimezone_abs (d : PyDT) : (astimezone d).abs = d.abs := by
  simp [astimezone, PyDT.abs]

/-- The age of an aware stored datetime, in months. -/
theorem ageOfActivation_vdt_aware (nowAbs : Int) (d : PyDT) (hoff : d.off.isSome) :
    ageOfActivation nowAbs (.vdt d)
      = some ((PyFloat.ofInt ((nowAbs - d.abs).fdiv 86400)).div monthsDivisor) := by
  unfold ageOfActivation
  rw [if_neg (by simp [truthy])]
  simp only [hoff, if_true]
  rw [astimezone_abs]

/-- The bucket conditions on an age `dd / 30.42`, as plain inequalities. -/
theorem monthsCond (lo hi dd : Int) :
    ((PyFloat.ofInt lo).le ((PyFloat.ofInt dd).div monthsDivisor)
      ∧ ((PyFloat.ofInt dd).div monthsDivisor).lt (PyFloat.ofInt hi))
    ↔ (lo * 3042 ≤ dd * 100 ∧ dd * 100 < hi * 3042) := by
  unfold PyFloat.le PyFloat.lt PyFloat.ofInt PyFloat.div monthsDivisor
  simp only []
  constructor <;> intro h <;> constructor <;> omega

/-- C1 counterexample: a record activated exactly 365 days before now is
placed in the `[0,12)` bucket, not `[12,36)`, because
`365 / 30.42 = 11.998... < 12`. -/
theorem C1_counterexample :
    getAgeDistribution (365 * 86400) [r365]
      = [("0–12", 1), ("12–36", 0), ("36–60", 0), ("60–120", 0), (">120", 0)]
    ∧ ("12–36", 1) ∉ getAgeDistribution (365 * 86400) [r365] := by
  decide

/-- C1 amended: a record whose aware `computer_activation` lies exactly
365 days in the past falls in the `[0,12)` bucket (since 365/30.42 < 12);
a record between 3651 and 304169 days old — which covers one 11 years old —
falls in the top `[120,9999)` bucket. -/
theorem C1_amended_age_buckets (nowAbs : Int) (r : Rec) (d : PyDT) (dd : Int)
    (hact : r.computer_activation = some (.vdt d)) (hoff : d.off.isSome)
    (hdd : nowAbs - d.abs = dd * 86400) :
    (dd = 365 → getAgeDistribution nowAbs [r]
        = [("0–12", 1), ("12–36", 0), ("36–60", 0), ("60–120", 0), (">120", 0)])
    ∧ (3651 ≤ dd → dd ≤ 304169 → getAgeDistribution nowAbs [r]
        = [("0–12", 0), ("12–36", 0), ("36–60", 0), ("60–120", 0), (">120", 1)]) := by
  have hage : r.computer_activation.bind (ageOfActivation nowAbs)
      = some ((PyFloat.ofInt dd).div monthsDivisor) := by
    rw [hact]
    simp only [Option.some_bind]
    rw [ageOfActivation_vdt_aware nowAbs d hoff, hdd,
      Int.mul_fdiv_cancel dd (show (86400 : Int) ≠ 0 by norm_num)]
  constructor
  · intro h365
    subst h365
    unfold getAgeDistribution
    simp only [List.filterMap_cons, List.filterMap_nil, hage]
    decide
  · intro hlo hhi
    unfold getAgeDistribution
    simp only [List.filterMap_cons, List.filterMap_nil, hage, List.foldl_cons,
      List.foldl_nil, ageRanges, List.map_cons, List.map_nil, bumpFirst]
    rw [if_neg (by rw [monthsCond]; omega), if_neg (by rw [monthsCond]; omega),
      if_neg (by rw [monthsCond]; omega), if_neg (by rw [monthsCond]; omega),
      if_pos (by rw [monthsCond]; omega)]
    rfl

/-- C1 witness: concrete runs at 365 days and at 4017 days (11 years from
2013-01-15 to 2024-01-15). -/
theorem C1_amended_age_buckets_witness :
    getAgeDistribution (365 * 86400) [r365]
      = [("0–12", 1), ("12–36", 0), ("36–60", 0), ("60–120", 0), (">120", 0)]
    ∧ getAgeDistribution (4017 * 86400) [r365]
      = [("0–12", 0), ("12–36", 0), ("36–60", 0), ("60–120", 0), (">120", 1)] :=
  ⟨(C1_amended_age_buckets (365 * 86400) r365 ⟨0, some 0⟩ 365
      (by decide) (by decide) (by decide)).1 rfl,
   (C1_amended_age_buckets (4017 * 86400) r365 ⟨0, some 0⟩ 4017
      (by decide) (by decide) (by decide)).2 (by decide) (by decide)⟩

end Tatuscan

namespace Tatuscan

set_option maxRecDepth 4000

/-- The bucket-membership condition as plain inequalities on the fraction. -/
theorem rangeCond (lo hi : Int) (m : PyFloat) :
    ((PyFloat.ofInt lo).le m ∧ m.lt (PyFloat.ofInt hi))
    ↔ (lo * m.den ≤ m.num ∧ m.num < hi * m.den) := by
  unfold PyFloat.le PyFloat.lt PyFloat.ofInt
  dsimp only
  constructor <;> intro h <;> constructor <;> omega

/-- The bucketing step never changes the ranges, only the counts. -/
theorem bumpFirst_fst (rs : List (AgeRange × Nat)) (m : PyFloat) :
    (bumpFirst rs m).map (fun p => p.1) = rs.map (fun p => p.1) := by
  induction rs with
  | nil => rfl
  | cons a t ih =>
    rcases a with ⟨r, c⟩
    unfold bumpFirst
    split
    · simp
    · simp [ih]

/-- One bucketing step adds one to the total count exactly when some range
contains the age (first-match-wins adds to only one range). -/
theorem bumpFirst_sum (rs : List (AgeRange × Nat)) (m : PyFloat) :
    ((bumpFirst rs m).map (fun p => p.2)).sum
      = (rs.map (fun p => p.2)).sum
        + (if ∃ p ∈ rs, (PyFloat.ofInt p.1.lo).le m ∧ m.lt (PyFloat.ofInt p.1.hi)
            then 1 else 0) := by
  induction rs with
  | nil => simp [bumpFirst]
  | cons a t ih =>
    rcases a with ⟨r, c⟩
    unfold bumpFirst
    by_cases hc : (PyFloat.ofInt r.lo).le m ∧ m.lt (PyFloat.ofInt r.hi)
    · rw [if_pos hc]
      simp only [List.map_cons, List.sum_cons]
      rw [if_pos ⟨(r, c), List.mem_cons_self _ _, hc⟩]
      try omega
    · rw [if_neg hc]
      simp only [List.map_cons, List.sum_cons, ih]
      have hiff : (∃ p ∈ (r, c) :: t,
            (PyFloat.ofInt p.1.lo).le m ∧ m.lt (PyFloat.ofInt p.1.hi))
          ↔ (∃ p ∈ t, (PyFloat.ofInt p.1.lo).le m ∧ m.lt (PyFloat.ofInt p.1.hi)) := by
        constructor
        · rintro ⟨p, hp, hP⟩
          rcases List.mem_cons.mp hp with h | h
          · rw [h] at hP
            exact absurd hP hc
          · exact ⟨p, h, hP⟩
        · rintro ⟨p, hp, hP⟩
          exact ⟨p, List.mem_cons_of_mem _ hp, hP⟩
      rw [if_congr hiff rfl rfl]
      omega

/-- The five ranges together cover exactly the ages in `[0, 9999)`. -/
theorem exists_bucket_iff (m : PyFloat) (rs : List (AgeRange × Nat))
    (hfst : rs.map (fun p => p.1) = ageRanges) :
    (∃ p ∈ rs, (PyFloat.ofInt p.1.lo).le m ∧ m.lt (PyFloat.ofInt p.1.hi))
    ↔ inBucketRange m := by
  have hmem : ∀ r : AgeRange, r ∈ ageRanges ↔ ∃ p ∈ rs, p.1 = r := by
    intro r
    rw [← hfst, List.mem_map]
  have hstep : (∃ p ∈ rs, (PyFloat.ofInt p.1.lo).le m ∧ m.lt (PyFloat.ofInt p.1.hi))
      ↔ ∃ r ∈ ageRanges, (PyFloat.ofInt r.lo).le m ∧ m.lt (PyFloat.ofInt r.hi) := by
    constructor
    · rintro ⟨p, hp, hP⟩
      exact ⟨p.1, (hmem p.1).mpr ⟨p, hp, rfl⟩, hP⟩
    · rintro ⟨r, hr, hP⟩
      rcases (hmem r).mp hr with ⟨p, hp, hpr⟩
      rw [← hpr] at hP
      exact ⟨p, hp, hP⟩
  rw [hstep]
  unfold ageRanges inBucketRange
  simp only [List.mem_cons, List.not_mem_nil, or_false, exists_eq_or_imp,
    exists_eq_left]
  unfold PyFloat.le PyFloat.lt PyFloat.ofInt
  simp only []
  constructor
  · intro h
    rcases h with h | h | h | h | h <;> constructor <;> omega
  · intro h
    rcases h with ⟨h0, h9⟩
    omega

/-- Folding the bucketing loop counts exactly the in-range ages. -/
theorem foldl_bumpFirst_sum (ages : List PyFloat) (rs : List (AgeRange × Nat))
    (hfst : rs.map (fun p => p.1) = ageRanges) :
    ((ages.foldl bumpFirst rs).map (fun p => p.2)).sum
      = (rs.map (fun p => p.2)).sum
        + (ages.filter (fun m => decide (inBucketRange m))).length := by
  induction ages generalizing rs with
  | nil => simp
  | cons m t ih =>
    simp only [List.foldl_cons]
    rw [ih (bumpFirst rs m) (by rw [bumpFirst_fst, hfst])]
    rw [bumpFirst_sum]
    rw [if_congr (exists_bucket_iff m rs hfst) rfl rfl]
    by_cases hm : inBucketRange m
    · simp [List.filter_cons, hm]
      omega
    · simp [List.filter_cons, hm]

/-- C4 counterexample: a record whose (parseable, non-null) activation lies
in the future has a negative age that no bucket contains, so the bucket
counts sum to 0 while one record has a parseable activation date. -/
theorem C4_counterexample :
    ((getAgeDistribution 0 [rFut]).map (fun p => p.2)).sum = 0
    ∧ parseableCount 0 [rFut] = 1 := by
  decide

/-- C4 amended: the sum of the five bucket counts equals the number of
records with a non-null, parseable activation whose age in months lies in
`[0, 9999)` (ages outside that range — negative, or at least 9999 months —
are silently dropped by the `[120, 9999)` top bucket); and every age in
`[0, 9999)` is matched by exactly one of the five ranges. -/
theorem C4_amended_bucket_partition (nowAbs : Int) (recs : List Rec) :
    ((getAgeDistribution nowAbs recs).map (fun p => p.2)).sum
      = ((recs.filterMap (fun r => r.computer_activation.bind (ageOfActivation nowAbs))).filter
          (fun m => decide (inBucketRange m))).length
    ∧ ∀ m : PyFloat, inBucketRange m →
        (ageRanges.filter
          (fun r => decide ((PyFloat.ofInt r.lo).le m ∧ m.lt (PyFloat.ofInt r.hi)))).length
          = 1 := by
  constructor
  · unfold getAgeDistribution
    rw [List.map_map]
    have hcomp : ((fun p : String × Nat => p.2) ∘ (fun rc : AgeRange × Nat => (rc.1.label, rc.2)))
        = fun rc : AgeRange × Nat => rc.2 := rfl
    rw [hcomp]
    rw [foldl_bumpFirst_sum _ (ageRanges.map (fun r => (r, 0))) (by decide)]
    have hz : ((ageRanges.map (fun r => (r, (0 : Nat)))).map (fun p => p.2)).sum = 0 := by
      decide
    omega
  · intro m hm
    unfold inBucketRange at hm
    rw [rangeCond] at hm
    simp only [ageRanges, List.filter_cons, List.filter_nil, decide_eq_true_eq, rangeCond]
    split_ifs <;> first | rfl | (exfalso; omega)

/-- C4 witness: a store with one 365-day-old record (age in range) and one
future-dated record (age out of range) sums to 1 counted bucket entry. -/
theorem C4_amended_bucket_partition_witness :
    ((getAgeDistribution (365 * 86400) [r365, rFut]).map (fun p => p.2)).sum
      = ((([r365, rFut].filterMap
            (fun r => r.computer_activation.bind (ageOfActivation (365 * 86400)))).filter
          (fun m => decide (inBucketRange m))).length)
    ∧ (ageRanges.filter
        (fun r => decide ((PyFloat.ofInt r.lo).le ⟨36500, 3042⟩
          ∧ PyFloat.lt ⟨36500, 3042⟩ (PyFloat.ofInt r.hi)))).length = 1 :=
  ⟨(C4_amended_bucket_partition (365 * 86400) [r365, rFut]).1,
   (C4_amended_bucket_partition (365 * 86400) [r365, rFut]).2 ⟨36500, 3042⟩ (by decide)⟩

end Tatuscan

namespace Tatuscan

set_option maxRecDepth 4000

/-- Every datetime the normalizer returns is timezone-aware: each branch
ends in `localize`, `astimezone`, or `fromtimestamp` with the zone. -/
theorem parse_datetime_aware (v : Val) (d : PyDT)
    (h : parse_datetime v = .ok (some d)) : dtAware d = true := by
  unfold parse_datetime at h
  repeat' (first | split at h | dsimp only [] at h)
  all_goals
    first
      | exact Except.noConfusion h
      | exact Option.noConfusion (Except.ok.inj h)
      | (have h2 := Option.some.inj (Except.ok.inj h)
         subst h2
         rfl)

/-- Any value the `computer_activation` handler stores is aware. -/
theorem optActivation_aware (o : Obs) (ca : Option (Option Val))
    (h : optActivation o = .ok ca) :
    ∀ oc v, ca = some oc → oc = some v → valAware v = true := by
  unfold optActivation at h
  intro oc v hoc hv
  cases hc : o.computer_activation with
  | none =>
    simp only [hc, exPure] at h
    have hca := Except.ok.inj h
    rw [← hca] at hoc
    cases hoc
  | some v0 =>
    simp only [hc] at h
    rcases hpd : parse_datetime v0 with e | dopt
    · rw [hpd, exBind_error] at h
      cases h
    · rw [hpd, exBind_ok, exPure] at h
      have : some (dopt.map Val.vdt) = ca := by
        have := h
        injection this
      rw [← this] at hoc
      injection hoc with hoc'
      cases dopt with
      | none => rw [← hoc'] at hv; cases hv
      | some d0 =>
        rw [← hoc'] at hv
        injection hv with hv'
        rw [← hv']
        exact parse_datetime_aware v0 d0 hpd

end Tatuscan

namespace Tatuscan

set_option maxRecDepth 4000

/-- Unfolding of the record awareness invariant. -/
theorem recAware_iff (r : Rec) : recAware r = true ↔
    (dtAware r.created_at = true
     ∧ (∀ d, r.updated_at = some d → dtAware d = true)
     ∧ (∀ v, r.computer_activation = some v → valAware v = true)) := by
  unfold recAware
  constructor
  · intro h
    simp only [Bool.and_eq_true] at h
    obtain ⟨⟨h1, h2⟩, h3⟩ := h
    refine ⟨h1, ?_, ?_⟩
    · intro d hd
      rw [hd] at h2
      exact h2
    · intro v hv
      rw [hv] at h3
      exact h3
  · rintro ⟨h1, h2, h3⟩
    simp only [Bool.and_eq_true]
    refine ⟨⟨h1, ?_⟩, ?_⟩
    · cases hu : r.updated_at with
      | none => simp
      | some d => simpa using h2 d hu
    · cases hc : r.computer_activation with
      | none => simp
      | some v => simpa using h3 v hc

/-- The update branch stores only aware instants (given an aware record). -/
theorem updateExisting_aware (ex : Rec) (nowAbs : Int) (o : Obs) (r : Rec)
    (hex : recAware ex = true) (h : updateExisting ex nowAbs o = .ok r) :
    recAware r = true := by
  obtain ⟨hc1, hc2, hc3⟩ := (recAware_iff ex).mp hex
  unfold updateExisting at h
  rcases hcf : coreFields o with e | cf
  · rw [hcf, exBind_error] at h
    cases h
  rw [hcf, exBind_ok] at h
  obtain ⟨a1, a2, a3, a4, a5, a6, a7, a8⟩ := cf
  dsimp only [] at h
  rcases hca : optActivation o with e | ca
  · rw [hca] at h
    rw [exBind_error] at h
    exact Except.noConfusion h
  rw [hca, exBind_ok] at h
  rcases had : optActDays o with e | ad
  · rw [had, exBind_error] at h
    exact Except.noConfusion h
  rw [had, exBind_ok, exPure] at h
  have hr := Except.ok.inj h
  subst hr
  refine (recAware_iff _).mpr ⟨hc1, ?_, ?_⟩
  · intro d hd
    injection hd with hd'
    rw [← hd']
    rfl
  · intro v hv
    cases ca with
    | none => exact hc3 v hv
    | some oc =>
      exact optActivation_aware o (some oc) hca oc v rfl hv

/-- The create branch stores only aware instants. -/
theorem createNew_aware (nowAbs : Int) (o : Obs) (r : Rec)
    (h : createNew nowAbs o = .ok r) : recAware r = true := by
  unfold createNew at h
  rcases hcf : coreFields o with e | cf
  · rw [hcf, exBind_error] at h
    cases h
  rw [hcf, exBind_ok] at h
  obtain ⟨a1, a2, a3, a4, a5, a6, a7, a8⟩ := cf
  dsimp only [] at h
  rcases hca : optActivation o with e | ca
  · rw [hca] at h
    rw [exBind_error] at h
    exact Except.noConfusion h
  rw [hca, exBind_ok] at h
  rcases had : optActDays o with e | ad
  · rw [had, exBind_error] at h
    exact Except.noConfusion h
  rw [had, exBind_ok] at h
  have hr := Except.ok.inj h
  subst hr
  refine (recAware_iff _).mpr ⟨rfl, ?_, ?_⟩
  · intro d hd
    cases hd
  · intro v hv
    cases ca with
    | none => cases hv
    | some oc =>
      exact optActivation_aware o (some oc) hca oc v rfl hv

/-- The PATCH body stores only aware instants (given an aware record). -/
theorem patchBody_aware (inv : Rec) (nowAbs : Int) (data : Obs) (r : Rec)
    (hinv : recAware inv = true) (h : patchBody inv nowAbs data = .ok r) :
    recAware r = true := by
  obtain ⟨hc1, hc2, hc3⟩ := (recAware_iff inv).mp hinv
  unfold patchBody at h
  rcases hca : data.computer_activation with _ | v
  all_goals rcases had : data.activation_days with _ | w
  · rw [hca, had] at h
    simp [exPure, exBind_ok] at h
  · rw [hca, had] at h
    by_cases hw : w = Val.vnull
    · subst hw
      simp [exPure, exBind_ok] at h
      subst h
      refine (recAware_iff _).mpr ⟨hc1, ?_, hc3⟩
      intro d hd
      injection hd with hd'
      rw [← hd']
      rfl
    · rcases hpi : pyInt w with e | k
      · simp [exPure, exBind_ok, hpi, hw, exBind_error] at h
      · simp [exPure, exBind_ok, hpi, hw] at h
        subst h
        refine (recAware_iff _).mpr ⟨hc1, ?_, hc3⟩
        intro d hd
        injection hd with hd'
        rw [← hd']
        rfl
  · rw [hca, had] at h
    rcases hpd : parse_datetime v with e | dopt
    · simp [exPure, exBind_ok, hpd, exBind_error] at h
    · simp [exPure, exBind_ok, hpd] at h
      subst h
      refine (recAware_iff _).mpr ⟨hc1, hc2, ?_⟩
      intro v1 hv1
      cases dopt with
      | none => cases hv1
      | some d0 =>
        injection hv1 with hv1'
        rw [← hv1']
        exact parse_datetime_aware v d0 hpd
  · rw [hca, had] at h
    rcases hpd : parse_datetime v with e | dopt
    · simp [exPure, exBind_ok, hpd, exBind_error] at h
    · by_cases hw : w = Val.vnull
      · subst hw
        simp [exPure, exBind_ok, hpd] at h
        subst h
        refine (recAware_iff _).mpr ⟨hc1, ?_, ?_⟩
        · intro d hd
          injection hd with hd'
          rw [← hd']
          rfl
        · intro v1 hv1
          cases dopt with
          | none => cases hv1
          | some d0 =>
            injection hv1 with hv1'
            rw [← hv1']
            exact parse_datetime_aware v d0 hpd
      · rcases hpi : pyInt w with e | k
        · simp [exPure, exBind_ok, hpd, hpi, hw, exBind_error] at h
        · simp [exPure, exBind_ok, hpd, hpi, hw] at h
          subst h
          refine (recAware_iff _).mpr ⟨hc1, ?_, ?_⟩
          · intro d hd
            injection hd with hd'
            rw [← hd']
            rfl
          · intro v1 hv1
            cases dopt with
            | none => cases hv1
            | some d0 =>
              injection hv1 with hv1'
              rw [← hv1']
              exact parse_datetime_aware v d0 hpd

/-- C9: every instant the reconciliation engine persists is timezone-aware
in the configured zone — if every record of the store is aware, then after
any successful `create_or_update` or `partial_update` every record of the
resulting store is still aware (new instants come from `datetime.now(tz)`
or the normalizer, both aware). -/
theorem C9_aware_instants_preserved (store : List Rec) (nowAbs : Int) (o : Obs)
    (id : String) (store1 store2 : List Rec) (r1 r2 : Rec) (b1 : Bool)
    (hstore : ∀ x ∈ store, recAware x = true) :
    (createOrUpdate store nowAbs o = (store1, .ok (r1, b1)) →
      ∀ x ∈ store1, recAware x = true)
    ∧ (patch_update store nowAbs id o = (store2, .ok r2) →
      ∀ x ∈ store2, recAware x = true) := by
  constructor
  · intro h x hx
    unfold createOrUpdate at h
    by_cases hmiss : missingOf o ≠ []
    · rw [if_pos hmiss] at h
      exact absurd h (by simp)
    rw [if_neg hmiss] at h
    cases hfind : findRec store (keyOf (gv o.machine_id)) with
    | some ex =>
      simp only [hfind] at h
      rcases hup : updateExisting ex nowAbs o with e | r
      · simp only [hup] at h
        exact absurd h (by simp)
      simp only [hup] at h
      injection h with hs hrb
      subst hs
      rcases List.mem_map.mp hx with ⟨y, hy, hxy⟩
      rw [← hxy]
      by_cases hyid : (y.machine_id == keyOf (gv o.machine_id)) = true
      · rw [if_pos hyid]
        exact updateExisting_aware ex nowAbs o r
          (hstore ex (List.mem_of_find?_eq_some hfind)) hup
      · rw [if_neg hyid]
        exact hstore y hy
    | none =>
      simp only [hfind] at h
      rcases hcr : createNew nowAbs o with e | r
      · simp only [hcr] at h
        exact absurd h (by simp)
      simp only [hcr] at h
      injection h with hs hrb
      subst hs
      rcases List.mem_append.mp hx with hxs | hxr
      · exact hstore x hxs
      · simp only [List.mem_singleton] at hxr
        rw [hxr]
        exact createNew_aware nowAbs o r hcr
  · intro h x hx
    unfold patch_update at h
    cases hfind : findRec store id with
    | none =>
      simp only [hfind] at h
      exact absurd h (by simp)
    | some inv =>
      simp only [hfind] at h
      rcases hb : patchBody inv nowAbs o with e | r
      · simp only [hb] at h
        exact absurd h (by simp)
      simp only [hb] at h
      injection h with hs hr
      subst hs
      rcases List.mem_map.mp hx with ⟨y, hy, hxy⟩
      rw [← hxy]
      by_cases hyid : (y.machine_id == id) = true
      · rw [if_pos hyid]
        exact patchBody_aware inv nowAbs o r
          (hstore inv (List.mem_of_find?_eq_some hfind)) hb
      · rw [if_neg hyid]
        exact hstore y hy

/-- C9 witness: the record created from a concrete observation is aware. -/
theorem C9_aware_instants_preserved_witness : recAware recA = true :=
  (C9_aware_instants_preserved [] 50 obsA "z" [recA] [] recA rTemplate true
      (by simp)).1 (by decide) recA (by decide)

end Tatuscan

namespace Tatuscan

set_option maxRecDepth 4000

/-- C3: a complete observation with a fresh machine id creates exactly one
new record (`wasCreated = true`, `created_at` stamped now); a second
complete observation with the same machine id overwrites the core fields
in place, preserves `created_at`, and reports `wasCreated = false`. -/
theorem C3_create_then_update (store : List Rec) (now1 now2 : Int) (o o2 : Obs)
    (mid h1 i1 s1 v1 : String) (c1 : PyFloat) (t1 u1 : Int) (m1 : Option String)
    (ca1 : Option (Option Val)) (ad1 : Option (Option Int))
    (h2 i2 s2 v2 : String) (c2 : PyFloat) (t2 u2 : Int) (m2 : Option String)
    (ca2 : Option (Option Val)) (ad2 : Option (Option Int))
    (hm : o.machine_id = some (.vstr mid)) (hm2 : o2.machine_id = some (.vstr mid))
    (hmiss : missingOf o = []) (hmiss2 : missingOf o2 = [])
    (hfind : findRec store mid = none)
    (hcf1 : coreFields o = .ok (h1, i1, s1, v1, c1, t1, u1, m1))
    (hca1 : optActivation o = .ok ca1) (had1 : optActDays o = .ok ad1)
    (hcf2 : coreFields o2 = .ok (h2, i2, s2, v2, c2, t2, u2, m2))
    (hca2 : optActivation o2 = .ok ca2) (had2 : optActDays o2 = .ok ad2) :
    ∃ r1 r2 : Rec,
      createOrUpdate store now1 o = (store ++ [r1], .ok (r1, true))
      ∧ r1.machine_id = mid ∧ r1.created_at = nowDT now1
      ∧ createOrUpdate (store ++ [r1]) now2 o2 = (store ++ [r2], .ok (r2, false))
      ∧ r2.created_at = r1.created_at ∧ r2.machine_id = mid
      ∧ r2.hostname = h2 ∧ r2.ip = i2 ∧ r2.os = s2 ∧ r2.os_version = v2
      ∧ r2.cpu_percent = c2 ∧ r2.memory_total_mb = t2 ∧ r2.memory_used_mb = u2
      ∧ r2.computer_model = m2 := by
  have hkey : keyOf (gv o.machine_id) = mid := by rw [hm]; rfl
  have hkey2 : keyOf (gv o2.machine_id) = mid := by rw [hm2]; rfl
  refine
    ⟨{ machine_id := mid, hostname := h1, ip := i1, os := s1, os_version := v1,
       cpu_percent := c1, memory_total_mb := t1, memory_used_mb := u1,
       computer_model := m1, computer_activation := ca1.getD none,
       activation_days := ad1.getD none, created_at := nowDT now1, updated_at := none },
     { machine_id := mid, hostname := h2, ip := i2, os := s2, os_version := v2,
       cpu_percent := c2, memory_total_mb := t2, memory_used_mb := u2,
       computer_model := m2,
       computer_activation := ca2.getD (ca1.getD none),
       activation_days := ad2.getD (ad1.getD none),
       created_at := nowDT now1, updated_at := some (nowDT now2) },
     ?_, rfl, rfl, ?_, rfl, rfl, rfl, rfl, rfl, rfl, rfl, rfl, rfl, rfl⟩
  · -- create step
    have hcr : createNew now1 o = .ok
        { machine_id := mid, hostname := h1, ip := i1, os := s1, os_version := v1,
          cpu_percent := c1, memory_total_mb := t1, memory_used_mb := u1,
          computer_model := m1, computer_activation := ca1.getD none,
          activation_days := ad1.getD none, created_at := nowDT now1,
          updated_at := none } := by
      unfold createNew
      rw [hcf1, exBind_ok]
      dsimp only []
      rw [hca1, exBind_ok, had1, exBind_ok, hkey]
      rfl
    unfold createOrUpdate
    rw [if_neg (by simp [hmiss])]
    simp only [hkey, hfind, hcr]
  · -- update step
    have hfind2 : findRec (store ++
        [{ machine_id := mid, hostname := h1, ip := i1, os := s1, os_version := v1,
           cpu_percent := c1, memory_total_mb := t1, memory_used_mb := u1,
           computer_model := m1, computer_activation := ca1.getD none,
           activation_days := ad1.getD none, created_at := nowDT now1,
           updated_at := none }]) mid = some
        { machine_id := mid, hostname := h1, ip := i1, os := s1, os_version := v1,
          cpu_percent := c1, memory_total_mb := t1, memory_used_mb := u1,
          computer_model := m1, computer_activation := ca1.getD none,
          activation_days := ad1.getD none, created_at := nowDT now1,
          updated_at := none } := by
      unfold findRec at hfind ⊢
      rw [List.find?_append, hfind]
      simp [List.find?]
    have hup : updateExisting
        { machine_id := mid, hostname := h1, ip := i1, os := s1, os_version := v1,
          cpu_percent := c1, memory_total_mb := t1, memory_used_mb := u1,
          computer_model := m1, computer_activation := ca1.getD none,
          activation_days := ad1.getD none, created_at := nowDT now1,
          updated_at := none } now2 o2 = .ok
        { machine_id := mid, hostname := h2, ip := i2, os := s2, os_version := v2,
          cpu_percent := c2, memory_total_mb := t2, memory_used_mb := u2,
          computer_model := m2,
          computer_activation := ca2.getD (ca1.getD none),
          activation_days := ad2.getD (ad1.getD none),
          created_at := nowDT now1, updated_at := some (nowDT now2) } := by
      unfold updateExisting
      rw [hcf2, exBind_ok]
      dsimp only []
      rw [hca2, exBind_ok, had2, exBind_ok]
      rfl
    unfold createOrUpdate
    rw [if_neg (by simp [hmiss2])]
    simp only [hkey2, hfind2, hup]
    have hmap : ∀ a ∈ store,
        (if (a.machine_id == mid) = true then
          ({ machine_id := mid, hostname := h2, ip := i2, os := s2, os_version := v2,
             cpu_percent := c2, memory_total_mb := t2, memory_used_mb := u2,
             computer_model := m2,
             computer_activation := ca2.getD (ca1.getD none),
             activation_days := ad2.getD (ad1.getD none),
             created_at := nowDT now1, updated_at := some (nowDT now2) } : Rec)
          else a) = a := by
      intro a ha
      have hnot := List.find?_eq_none.mp hfind a ha
      rw [if_neg hnot]
    rw [List.map_append, List.map_congr_left hmap]
    simp

/-- C3 witness: concrete create-then-update run on `obsA` / `obsA2`. -/
theorem C3_create_then_update_witness :
    ∃ r1 r2 : Rec,
      createOrUpdate [] 50 obsA = ([] ++ [r1], .ok (r1, true))
      ∧ r1.machine_id = "mA" ∧ r1.created_at = nowDT 50
      ∧ createOrUpdate ([] ++ [r1]) 60 obsA2 = ([] ++ [r2], .ok (r2, false))
      ∧ r2.created_at = r1.created_at ∧ r2.machine_id = "mA"
      ∧ r2.hostname = "hB" ∧ r2.ip = "9.9.9.9" ∧ r2.os = "linux" ∧ r2.os_version = "22.04"
      ∧ r2.cpu_percent = PyFloat.ofInt 3 ∧ r2.memory_total_mb = 16000
      ∧ r2.memory_used_mb = 0 ∧ r2.computer_model = none :=
  C3_create_then_update [] 50 60 obsA obsA2 "mA"
    "hA" "9.9.9.9" "linux" "22.04" ⟨125, 10⟩ 16000 0 none none none
    "hB" "9.9.9.9" "linux" "22.04" (PyFloat.ofInt 3) 16000 0 none none none
    (by decide) (by decide) (by decide) (by decide) (by decide)
    (by rfl) (by decide) (by decide) (by rfl) (by decide) (by decide)

end Tatuscan
